import Mathlib

/-!
Verification of the cnproc netlink process-event monitor (src/lib.rs).

The development shallowly embeds the library's pure core:

* the netlink alignment macros `nlmsg_align`, `nlmsg_hdrlen`, `nlmsg_length`;
* the event decoder `parse_msg`;
* the frame walk inside `PidMonitor::get_events` (as `walkFrom`, with an
  explicit fuel parameter so that the inner `loop` of the source, which can
  fail to terminate, is representable as a total function: a `none` result
  means the loop ran out of fuel, i.e. made that many iterations without
  returning);
* the outer receive loop of `get_events` and the `recv` poll API, with the
  kernel socket abstracted as an oracle list of receive outcomes
  (`none` = the recv syscall failed, `some bytes` = it delivered `bytes`);
* the resource flow of `PidMonitor::from_id` / `listen` / `Drop`,
  with the fallible syscalls abstracted as booleans.

Buffers are lists of bytes (each a `Nat`); multi-byte fields are read
little-endian, matching the host-native byte order of the x86-64 targets the
crate runs on. Reads past the received length return 0 (the source would read
stale buffer contents there; no claim depends on those bytes).
-/

/-- Little-endian 16-bit load at byte offset `off` (host-native order). -/
def readU16 (b : List Nat) (off : Nat) : Nat :=
  b.getD off 0 + 256 * b.getD (off + 1) 0

/-- Little-endian 32-bit load at byte offset `off` (host-native order). -/
def readU32 (b : List Nat) (off : Nat) : Nat :=
  readU16 b off + 65536 * readU16 b (off + 2)

/-- Reinterpret a 32-bit unsigned value as a two's-complement signed i32. -/
def toI32 (n : Nat) : Int :=
  if n < 2147483648 then (n : Int) else (n : Int) - 4294967296

/-- Modelled from the spec: `src/binding.rs` (the bindgen output of the kernel
headers) is not under `src/`; these are the wire-layout constants the spec's
section 2 calls "fixed offsets/sizes/discriminants mirroring the kernel ABI".
Netlink control message type NLMSG_NOOP. -/
def NLMSG_NOOP : Nat := 1

/-- Modelled from the spec: kernel ABI netlink control type NLMSG_ERROR. -/
def NLMSG_ERROR : Nat := 2

/-- Modelled from the spec: kernel ABI netlink terminal/single-part marker
NLMSG_DONE (the type the subscription request is sent with). -/
def NLMSG_DONE : Nat := 3

/-- Modelled from the spec: connector namespace index for process events. -/
def CN_IDX_PROC : Nat := 1

/-- Modelled from the spec: connector namespace value for process events. -/
def CN_VAL_PROC : Nat := 1

/-- Modelled from the spec: kernel ABI discriminant PROC_EVENT_FORK. -/
def PROC_EVENT_FORK : Nat := 1

/-- Modelled from the spec: kernel ABI discriminant PROC_EVENT_EXEC. -/
def PROC_EVENT_EXEC : Nat := 2

/-- Modelled from the spec: kernel ABI discriminant PROC_EVENT_EXIT. -/
def PROC_EVENT_EXIT : Nat := 2147483648

/-- Modelled from the spec: kernel ABI discriminant PROC_EVENT_COREDUMP. -/
def PROC_EVENT_COREDUMP : Nat := 1073741824

/-- Source `nlmsg_align` (src/lib.rs lines 12-15): `(len + 3) & !3` on usize,
i.e. clear the two low bits of `len + 3`. -/
def nlmsg_align (len : Nat) : Nat := (len + 3) - (len + 3) % 4

/-- Source `nlmsg_hdrlen` (src/lib.rs lines 17-20): the aligned size of
`nlmsghdr`, whose kernel ABI size is 16 bytes (u32 len, u16 type, u16 flags,
u32 seq, u32 pid). -/
def nlmsg_hdrlen : Nat := nlmsg_align 16

/-- Source `nlmsg_length` (src/lib.rs lines 22-25). -/
def nlmsg_length (len : Nat) : Nat := len + nlmsg_hdrlen

/-- Source `PidEvent` enum (src/lib.rs lines 27-55); signed 32-bit fields are
modelled as `Int` in two's-complement range, the u32 fields as `Nat`. -/
inductive PidEvent where
  | Exec (process_pid process_tgid : Int)
  | Fork (child_pid child_tgid parent_pid parent_tgid : Int)
  | Coredump (process_pid process_tgid parent_pid parent_tgid : Int)
  | Exit (process_pid process_tgid parent_pid parent_tgid : Int)
      (exit_code exit_signal : Nat)
deriving DecidableEq, Repr

/-- Source `parse_msg` (src/lib.rs lines 219-277) for the frame starting at
byte offset `off` of buffer `b`.  Offsets are fixed by the kernel ABI layouts
(modelled from the spec, since `src/binding.rs` is not under `src/`):
the `cn_msg` envelope starts at `off + nlmsg_length(0) = off + 16` with
`id.idx` at +0, `id.val` at +4, `seq` +8, `ack` +12, `len` (u16) +16,
`flags` (u16) +18 and `data` at +20; the `proc_event` at the data pointer
(frame offset 36) has `what` at +0, `cpu` at +4, `timestamp_ns` at +8 and the
event union at +16 (frame offset 52).  Union layouts: fork = parent_pid,
parent_tgid, child_pid, child_tgid; exec = process_pid, process_tgid;
exit = process_pid, process_tgid, exit_code, exit_signal, parent_pid,
parent_tgid; coredump = process_pid, process_tgid, parent_pid, parent_tgid. -/
def parse_msg (b : List Nat) (off : Nat) : Option PidEvent :=
  if readU32 b (off + 16) ≠ CN_IDX_PROC ∨ readU32 b (off + 20) ≠ CN_VAL_PROC then
    none
  else if readU32 b (off + 36) = PROC_EVENT_FORK then
    some (.Fork (toI32 (readU32 b (off + 60))) (toI32 (readU32 b (off + 64)))
                (toI32 (readU32 b (off + 52))) (toI32 (readU32 b (off + 56))))
  else if readU32 b (off + 36) = PROC_EVENT_EXEC then
    some (.Exec (toI32 (readU32 b (off + 52))) (toI32 (readU32 b (off + 56))))
  else if readU32 b (off + 36) = PROC_EVENT_EXIT then
    some (.Exit (toI32 (readU32 b (off + 52))) (toI32 (readU32 b (off + 56)))
                (toI32 (readU32 b (off + 68))) (toI32 (readU32 b (off + 72)))
                (readU32 b (off + 60)) (readU32 b (off + 64)))
  else if readU32 b (off + 36) = PROC_EVENT_COREDUMP then
    some (.Coredump (toI32 (readU32 b (off + 52))) (toI32 (readU32 b (off + 56)))
                    (toI32 (readU32 b (off + 60))) (toI32 (readU32 b (off + 64))))
  else
    none

/-- The inner frame-walk `loop` of `PidMonitor::get_events`
(src/lib.rs lines 176-201), iterating over the frame at byte offset `off`
with `len` bytes remaining.  One fuel unit is one loop iteration; `none`
means the loop performed `fuel` iterations without returning (the source
loop does not terminate).  Structure, in source order:
the NLMSG_OK checks (`len < nlmsg_hdrlen` and `len < nlmsg_len`) break and
return the events collected so far; the `NLMSG_ERROR | NLMSG_NOOP` match arm
is `continue`, which restarts the loop with `header` and `len` unchanged
(the NLMSG_NEXT advance below it is skipped); otherwise `parse_msg` runs and
any event is pushed, then the cursor advances by `nlmsg_align` of the
declared length, and `len.checked_sub(aligned_len)` being `None` breaks. -/
def walkFrom (b : List Nat) : Nat → Nat → Nat → Option (List PidEvent)
  | _, _, 0 => none
  | off, len, fuel + 1 =>
    if len < nlmsg_hdrlen then some []
    else if len < readU32 b off then some []
    else if readU16 b (off + 4) = NLMSG_ERROR ∨ readU16 b (off + 4) = NLMSG_NOOP then
      walkFrom b off len fuel
    else if nlmsg_align (readU32 b off) ≤ len then
      Option.map (fun rest => (parse_msg b off).toList ++ rest)
        (walkFrom b (off + nlmsg_align (readU32 b off))
          (len - nlmsg_align (readU32 b off)) fuel)
    else
      some (parse_msg b off).toList

/-- One decode pass of `get_events` over a received buffer `b` of `b.length`
bytes, started at offset 0.  Fuel `b.length + 1` suffices for every
terminating run of the source loop: an iteration that neither returns nor
repeats the same state shrinks `len` by at least 4. -/
def decodePass (b : List Nat) : Option (List PidEvent) :=
  walkFrom b 0 b.length (b.length + 1)

/-- Result of `PidMonitor::get_events`: `res` is `true` for `Ok(())`, `false`
for `Err(_)`; `queue` is the event queue afterwards, `rest` the receive
outcomes not yet consumed. -/
structure GEOut where
  res : Bool
  queue : List PidEvent
  rest : List (Option (List Nat))
deriving DecidableEq, Repr

/-- Source `PidMonitor::get_events` (src/lib.rs lines 158-204): the
`while self.queue.is_empty()` loop.  The kernel socket is abstracted as the
oracle list `recvs`: entry `none` is a failing `libc::recv` (negative
return), `some bytes` a delivery of exactly `bytes`.  A `none` result means
the call does not return (the oracle is exhausted with the queue still
empty — the real call would block — or the inner frame walk diverges). -/
def get_events (queue : List PidEvent) : List (Option (List Nat)) → Option GEOut
  | [] => if queue.isEmpty then none else some ⟨true, queue, []⟩
  | r :: rest =>
    if queue.isEmpty then
      match r with
      | none => some ⟨false, queue, rest⟩
      | some bytes =>
        if bytes.isEmpty then some ⟨true, queue, rest⟩
        else
          match decodePass bytes with
          | none => none
          | some evs => get_events (queue ++ evs) rest
    else some ⟨true, queue, r :: rest⟩

/-- Source `PidMonitor::recv` (src/lib.rs lines 207-216), the poll API.
Returns the popped event (or `none`), the queue afterwards and the receive
outcomes not yet consumed; the outer `none` again means the call does not
return.  `VecDeque::pop_front` is `head?` / `tail`. -/
def recv (queue : List PidEvent) (recvs : List (Option (List Nat))) :
    Option (Option PidEvent × List PidEvent × List (Option (List Nat))) :=
  if queue.isEmpty then
    match get_events queue recvs with
    | none => none
    | some out =>
      if out.res then some (out.queue.head?, out.queue.tail, out.rest)
      else some (none, out.queue, out.rest)
  else some (queue.head?, queue.tail, recvs)

/-- Outcome of a `PidMonitor::from_id` construction attempt: did it return
`Ok`, and is the socket fd created at src/lib.rs line 75 still open when the
function returns. -/
structure ConstructOutcome where
  ok : Bool
  fdOpen : Bool
deriving DecidableEq, Repr

/-- Source `PidMonitor::listen` (src/lib.rs lines 109-155) reduced to its
fallibility: it returns `Ok` iff the `setsockopt` call and the `writev` call
both succeed (each abstracted as a boolean). -/
def listen (sockoptOk writevOk : Bool) : Bool := sockoptOk && writevOk

/-- Source `PidMonitor::from_id` (src/lib.rs lines 74-106) with `Drop`
(lines 279-283), as a resource flow over the three fallible steps after the
socket is created: `bind` (line 89), and inside `listen` the `setsockopt`
and `writev`.  A failing `bind` returns `Err` at line 97 before any
`PidMonitor` value exists, so no `Drop` runs and the fd stays open; a
failing `listen` propagates through `?` at line 104 after the monitor was
built at line 99, so the monitor is dropped and `Drop` closes the fd;
success hands the open fd to the returned monitor. -/
def from_id (bindOk sockoptOk writevOk : Bool) : ConstructOutcome :=
  if !bindOk then { ok := false, fdOpen := true }
  else if listen sockoptOk writevOk then { ok := true, fdOpen := true }
  else { ok := false, fdOpen := false }

/-- From `get_events` (src/lib.rs line 159-160): the receive buffer is a
`Vec<u32>` whose capacity is `min(sysconf(_SC_PAGE_SIZE), 8192)` elements
(taking the capacity to be exactly the one requested). -/
def recvBufferElems (pageSize : Nat) : Nat := min pageSize 8192

/-- From `get_events` (src/lib.rs line 166): the maximum length handed to
`libc::recv` is `buff_size * 4` bytes, the byte size of the `u32` buffer. -/
def recvMaxLenBytes (pageSize : Nat) : Nat := recvBufferElems pageSize * 4

/-- A 16-byte frame whose declared length is 16 and whose type is
NLMSG_NOOP. -/
def noopBuf : List Nat :=
  [16, 0, 0, 0, 1, 0, 0, 0, 0, 0, 0, 0, 0, 0, 0, 0]

/-- A 16-byte frame whose declared length is 16 and whose type is
NLMSG_ERROR. -/
def errBuf : List Nat :=
  [16, 0, 0, 0, 2, 0, 0, 0, 0, 0, 0, 0, 0, 0, 0, 0]

/-- A 68-byte frame carrying a process-events fork record: nlmsg_len 68,
type NLMSG_DONE, namespace (CN_IDX_PROC, CN_VAL_PROC), discriminant
PROC_EVENT_FORK, parent pid/tgid 1, child pid/tgid 100. -/
def forkBuf : List Nat :=
  [68, 0, 0, 0, 3, 0, 0, 0, 0, 0, 0, 0, 0, 0, 0, 0,
   1, 0, 0, 0, 1, 0, 0, 0, 0, 0, 0, 0, 0, 0, 0, 0, 0, 0, 0, 0,
   1, 0, 0, 0, 0, 0, 0, 0, 0, 0, 0, 0, 0, 0, 0, 0,
   1, 0, 0, 0, 1, 0, 0, 0, 100, 0, 0, 0, 100, 0, 0, 0]

/-- A 24-byte frame with a foreign connector namespace (idx 2): the decoder
must yield no record for it. -/
def foreignBuf : List Nat :=
  [24, 0, 0, 0, 3, 0, 0, 0, 0, 0, 0, 0, 0, 0, 0, 0,
   2, 0, 0, 0, 1, 0, 0, 0]

/-- Like `forkBuf` but with the unrecognized event discriminant 5. -/
def unknownEvBuf : List Nat :=
  [68, 0, 0, 0, 3, 0, 0, 0, 0, 0, 0, 0, 0, 0, 0, 0,
   1, 0, 0, 0, 1, 0, 0, 0, 0, 0, 0, 0, 0, 0, 0, 0, 0, 0, 0, 0,
   5, 0, 0, 0, 0, 0, 0, 0, 0, 0, 0, 0, 0, 0, 0, 0,
   1, 0, 0, 0, 1, 0, 0, 0, 100, 0, 0, 0, 100, 0, 0, 0]

/-- A 92-byte buffer: the foreign-namespace frame followed by the fork
frame. -/
def mixedBuf : List Nat := foreignBuf ++ forkBuf

/-- Like `forkBuf` but with the envelope's declared payload-length field
(frame offset 32) set to 99 instead of 0. -/
def forkBufLen99 : List Nat := forkBuf.set 32 99

/-! ## Helper lemmas -/

theorem nlmsg_align_eq (n : Nat) : nlmsg_align n = (n + 3) / 4 * 4 := by
  unfold nlmsg_align; omega

theorem walkFrom_step (b : List Nat) (off len fuel : Nat)
    (h1 : ¬ len < nlmsg_hdrlen) (h2 : ¬ len < readU32 b off)
    (h3 : readU16 b (off + 4) ≠ NLMSG_ERROR) (h4 : readU16 b (off + 4) ≠ NLMSG_NOOP) :
    walkFrom b off len (fuel + 1) =
      if nlmsg_align (readU32 b off) ≤ len then
        Option.map (fun rest => (parse_msg b off).toList ++ rest)
          (walkFrom b (off + nlmsg_align (readU32 b off))
            (len - nlmsg_align (readU32 b off)) fuel)
      else some (parse_msg b off).toList := by
  rw [walkFrom]
  rw [if_neg h1, if_neg h2, if_neg (by simp [h3, h4])]

theorem get_events_cons_queue (e : PidEvent) (q : List PidEvent)
    (recvs : List (Option (List Nat))) :
    get_events (e :: q) recvs = some ⟨true, e :: q, recvs⟩ := by
  cases recvs <;> rfl

theorem recv_cons (e : PidEvent) (q : List PidEvent)
    (recvs : List (Option (List Nat))) :
    recv (e :: q) recvs = some (some e, q, recvs) := rfl

theorem get_events_none_cons (rest : List (Option (List Nat))) :
    get_events [] (none :: rest) = some ⟨false, [], rest⟩ := rfl

theorem get_events_some_cons (bytes : List Nat) (rest : List (Option (List Nat))) :
    get_events [] (some bytes :: rest) =
      if bytes.isEmpty then some ⟨true, [], rest⟩
      else
        match decodePass bytes with
        | none => none
        | some evs => get_events evs rest := rfl

theorem get_events_err_nil (recvs : List (Option (List Nat))) (q : List PidEvent)
    (rest : List (Option (List Nat)))
    (h : get_events [] recvs = some ⟨false, q, rest⟩) : q = [] := by
  induction recvs generalizing q rest with
  | nil => simp [get_events] at h
  | cons r rest' ih =>
    match r with
    | none =>
      rw [get_events_none_cons] at h
      simp only [Option.some.injEq, GEOut.mk.injEq] at h
      exact h.2.1.symm
    | some bytes =>
      rw [get_events_some_cons] at h
      by_cases hb : bytes.isEmpty
      · rw [if_pos hb] at h; simp at h
      · rw [if_neg hb] at h
        match hdec : decodePass bytes with
        | none => rw [hdec] at h; simp at h
        | some evs =>
          rw [hdec] at h
          match evs with
          | [] => exact ih q rest h
          | e :: es =>
            have h2 : get_events (e :: es) rest' = some ⟨false, q, rest⟩ := h
            rw [get_events_cons_queue] at h2
            simp at h2

theorem get_events_rest_len (recvs : List (Option (List Nat))) (g : GEOut)
    (h : get_events [] recvs = some g) : g.rest.length + 1 ≤ recvs.length := by
  induction recvs generalizing g with
  | nil => simp [get_events] at h
  | cons r rest' ih =>
    match r with
    | none =>
      rw [get_events_none_cons] at h
      cases h
      simp
    | some bytes =>
      rw [get_events_some_cons] at h
      by_cases hb : bytes.isEmpty
      · rw [if_pos hb] at h
        cases h
        simp
      · rw [if_neg hb] at h
        match hdec : decodePass bytes with
        | none => rw [hdec] at h; simp at h
        | some evs =>
          rw [hdec] at h
          match evs with
          | [] =>
            have := ih g h
            simp only [List.length_cons]
            omega
          | e :: es =>
            have h2 : get_events (e :: es) rest' = some g := h
            rw [get_events_cons_queue] at h2
            cases h2
            simp

theorem get_events_skip_zero_record_passes (pre : List (List Nat))
    (recvs : List (Option (List Nat)))
    (hpre : ∀ x ∈ pre, ¬ x.isEmpty ∧ decodePass x = some []) :
    get_events [] (pre.map Option.some ++ recvs) = get_events [] recvs := by
  induction pre with
  | nil => rfl
  | cons x pre' ih =>
    have hx := hpre x (List.mem_cons_self x pre')
    rw [List.map_cons, List.cons_append, get_events_some_cons, if_neg hx.1, hx.2]
    exact ih fun y hy => hpre y (List.mem_cons_of_mem x hy)

theorem readU32_agree (b1 b2 : List Nat) (o : Nat)
    (h : ∀ k, k < 4 → b1.getD (o + k) 0 = b2.getD (o + k) 0) :
    readU32 b1 o = readU32 b2 o := by
  have e0 := h 0 (by omega)
  have e1 := h 1 (by omega)
  have e2 := h 2 (by omega)
  have e3 := h 3 (by omega)
  simp only [Nat.add_zero] at e0
  unfold readU32 readU16
  rw [e0, e1]
  rw [show o + 2 + 1 = o + 3 from rfl, e2, e3]

theorem getD_set_ne (l : List Nat) (m i a : Nat) (h : m ≠ i) :
    (l.set m a).getD i 0 = l.getD i 0 := by
  simp [List.getD, List.getElem?_set_ne h]

theorem recv_nil_eq (recvs : List (Option (List Nat))) :
    recv [] recvs =
      match get_events [] recvs with
      | none => none
      | some out =>
        if out.res then some (out.queue.head?, out.queue.tail, out.rest)
        else some (none, out.queue, out.rest) := rfl

/-! ## Claims -/

/-- C1 (code_bug): the claim — and the spec — say that a frame whose type code
is NLMSG_ERROR or NLMSG_NOOP is skipped without decoding but the cursor still
advances past it by the frame's padded length, so the walk reaches subsequent
frames and terminates.  The source instead executes the `continue` at
src/lib.rs line 187, which restarts the inner `loop` without running the
NLMSG_NEXT advance at lines 195-200: on a buffer holding a NOOP (or ERROR)
frame the walk re-reads the same frame forever — for every iteration budget it
fails to return. -/
theorem c1_noise_frame_walk_diverges :
    (∀ fuel, walkFrom noopBuf 0 16 fuel = none) ∧
    (∀ fuel, walkFrom errBuf 0 16 fuel = none) := by
  constructor
  · intro fuel
    induction fuel with
    | zero => rfl
    | succ n ih =>
      have step : walkFrom noopBuf 0 16 (n + 1) = walkFrom noopBuf 0 16 n := rfl
      rw [step]; exact ih
  · intro fuel
    induction fuel with
    | zero => rfl
    | succ n ih =>
      have step : walkFrom errBuf 0 16 (n + 1) = walkFrom errBuf 0 16 n := rfl
      rw [step]; exact ih

/-- C2 (code_bug): the claim — and the spec — say construction never returns an
error while leaving the acquired socket open.  When `bind` fails the source
returns `Err` at src/lib.rs line 97 before any `PidMonitor` value exists, so
`Drop` never runs and the fd created at line 75 stays open; the
handshake-failure paths (setsockopt or writev failing inside `listen`) do
release it, because the `?` at line 104 drops the already-built monitor. -/
theorem c2_bind_failure_leaks_fd :
    from_id false true true = { ok := false, fdOpen := true } ∧
    from_id true false true = { ok := false, fdOpen := false } ∧
    from_id true true false = { ok := false, fdOpen := false } ∧
    from_id true true true = { ok := true, fdOpen := true } := by decide

/-- C4 counterexample: the claim quantifies over every frame, but a frame whose
type code is NLMSG_NOOP is never advanced past: prepending a 16-byte NOOP
frame to a decodable fork frame makes the whole pass diverge (`none`), whereas
the fork frame alone decodes fine — so for the NOOP frame the cursor does not
advance by its padded length and the walk never reaches the next frame. -/
theorem c4_counterexample :
    decodePass (noopBuf ++ forkBuf) = none ∧
    decodePass forkBuf = some [PidEvent.Fork 100 100 1 1] := by
  constructor
  · decide
  · decide

/-- C4 amended: for every frame whose type code is not one of the two
control-noise codes, the walk advances the cursor by exactly
`(L + 3) / 4 * 4` bytes — the declared length `L` rounded up to the next
4-byte boundary, i.e. `ceil(L/4)*4` — so the next frame starts at the
previous start plus that padded span; if this advance would exceed the
remaining buffer the walk stops (keeping the current frame's record) rather
than consuming more than what is left. -/
theorem c4_padded_advance (b : List Nat) (off len fuel : Nat)
    (h1 : nlmsg_hdrlen ≤ len) (h2 : readU32 b off ≤ len)
    (h3 : readU16 b (off + 4) ≠ NLMSG_ERROR)
    (h4 : readU16 b (off + 4) ≠ NLMSG_NOOP) :
    nlmsg_align (readU32 b off) = (readU32 b off + 3) / 4 * 4 ∧
    walkFrom b off len (fuel + 1) =
      if nlmsg_align (readU32 b off) ≤ len then
        Option.map (fun rest => (parse_msg b off).toList ++ rest)
          (walkFrom b (off + nlmsg_align (readU32 b off))
            (len - nlmsg_align (readU32 b off)) fuel)
      else some (parse_msg b off).toList :=
  ⟨nlmsg_align_eq _,
   walkFrom_step b off len fuel (by omega) (by omega) h3 h4⟩

theorem c4_witness :
    nlmsg_align (readU32 forkBuf 0) = (readU32 forkBuf 0 + 3) / 4 * 4 ∧
    walkFrom forkBuf 0 68 2 =
      if nlmsg_align (readU32 forkBuf 0) ≤ 68 then
        Option.map (fun rest => (parse_msg forkBuf 0).toList ++ rest)
          (walkFrom forkBuf (0 + nlmsg_align (readU32 forkBuf 0))
            (68 - nlmsg_align (readU32 forkBuf 0)) 1)
      else some (parse_msg forkBuf 0).toList :=
  c4_padded_advance forkBuf 0 68 1 (by decide) (by decide) (by decide) (by decide)

/-- C8 counterexample: with a 4096-byte system page the claim predicts a
receive invoked with `min(4096, 8192) = 4096` bytes as its maximum length; the
source allocates a `Vec<u32>` of `min(page, 8192)` elements and passes
`buff_size * 4 = 16384` bytes to `libc::recv` (src/lib.rs lines 159-166). -/
theorem c8_counterexample :
    recvMaxLenBytes 4096 = 16384 ∧ recvMaxLenBytes 4096 ≠ min 4096 8192 := by
  decide

/-- C8 amended: the receive buffer is `min(page size, 8192)` 32-bit words —
four times the claimed byte count — and the receive call's maximum length is
`4 * min(page size, 8192)` bytes, exactly the byte size of that buffer. -/
theorem c8_recv_len (pageSize : Nat) :
    recvMaxLenBytes pageSize = 4 * min pageSize 8192 ∧
    recvMaxLenBytes pageSize = 4 * recvBufferElems pageSize := by
  unfold recvMaxLenBytes recvBufferElems
  omega

/-- C3 counterexample: with an empty queue and a first receive whose decode
pass produces zero records (a foreign-namespace frame), the claim predicts
the call returns "none" after that single receive, leaving the second receive
outcome unconsumed.  The source's `while self.queue.is_empty()` loop instead
performs the second receive in the same call and returns its fork record with
the oracle fully consumed. -/
theorem c3_counterexample :
    recv [] [some foreignBuf, some forkBuf] =
      some (some (PidEvent.Fork 100 100 1 1), [], []) ∧
    recv [] [some foreignBuf, some forkBuf] ≠
      some (none, [], [some forkBuf]) := by
  constructor
  · decide
  · decide

/-- C3 amended: for every poll (recv) call with an empty queue, blocking
receives are performed repeatedly, not once: a pass that produces zero
records triggers a further receive within the same call; the first pass that
produces at least one record has all its records appended to the queue tail
in scan order, the head is popped and returned, and no further receive is
attempted. -/
theorem c3_recv_loops_until_records (pre : List (List Nat)) (b : List Nat)
    (rest : List (Option (List Nat))) (e : PidEvent) (evs : List PidEvent)
    (hpre : ∀ x ∈ pre, ¬ x.isEmpty ∧ decodePass x = some [])
    (hb : ¬ b.isEmpty) (hdec : decodePass b = some (e :: evs)) :
    recv [] (pre.map Option.some ++ (some b :: rest)) =
      some (some e, evs, rest) := by
  have hg : get_events [] (pre.map Option.some ++ (some b :: rest)) =
      some ⟨true, e :: evs, rest⟩ := by
    rw [get_events_skip_zero_record_passes pre _ hpre, get_events_some_cons,
      if_neg hb, hdec]
    exact get_events_cons_queue e evs rest
  rw [recv_nil_eq, hg]
  rfl

theorem c3_witness :
    recv [] ([foreignBuf].map Option.some ++ (some forkBuf :: [])) =
      some (some (PidEvent.Fork 100 100 1 1), [], []) :=
  c3_recv_loops_until_records [foreignBuf] forkBuf []
    (PidEvent.Fork 100 100 1 1) [] (by decide) (by decide) (by decide)

/-- C5 (confirmed): a frame whose connector namespace pair differs from
(CN_IDX_PROC, CN_VAL_PROC) decodes to none whatever the rest of its bytes
hold; a frame whose 4-byte discriminant is none of the four recognized codes
decodes to none; and a frame that decodes to none does not halt the walk —
the walk of such a frame simply proceeds to the rest of the buffer, adding no
record. -/
theorem c5_decoder_rejects :
    (∀ (b : List Nat) (off : Nat),
        readU32 b (off + 16) ≠ CN_IDX_PROC ∨ readU32 b (off + 20) ≠ CN_VAL_PROC →
        parse_msg b off = none) ∧
    (∀ (b : List Nat) (off : Nat),
        readU32 b (off + 36) ≠ PROC_EVENT_FORK →
        readU32 b (off + 36) ≠ PROC_EVENT_EXEC →
        readU32 b (off + 36) ≠ PROC_EVENT_EXIT →
        readU32 b (off + 36) ≠ PROC_EVENT_COREDUMP →
        parse_msg b off = none) ∧
    (∀ (b : List Nat) (off len fuel : Nat),
        nlmsg_hdrlen ≤ len → readU32 b off ≤ len →
        readU16 b (off + 4) ≠ NLMSG_ERROR → readU16 b (off + 4) ≠ NLMSG_NOOP →
        nlmsg_align (readU32 b off) ≤ len →
        parse_msg b off = none →
        walkFrom b off len (fuel + 1) =
          walkFrom b (off + nlmsg_align (readU32 b off))
            (len - nlmsg_align (readU32 b off)) fuel) := by
  refine ⟨?_, ?_, ?_⟩
  · intro b off h
    unfold parse_msg
    rw [if_pos h]
  · intro b off h1 h2 h3 h4
    unfold parse_msg
    by_cases hns : readU32 b (off + 16) ≠ CN_IDX_PROC ∨ readU32 b (off + 20) ≠ CN_VAL_PROC
    · rw [if_pos hns]
    · rw [if_neg hns, if_neg h1, if_neg h2, if_neg h3, if_neg h4]
  · intro b off len fuel h1 h2 h3 h4 h5 hp
    rw [walkFrom_step b off len fuel (by omega) (by omega) h3 h4, if_pos h5, hp]
    cases walkFrom b (off + nlmsg_align (readU32 b off))
      (len - nlmsg_align (readU32 b off)) fuel <;> simp

theorem c5_witness :
    parse_msg foreignBuf 0 = none ∧
    parse_msg unknownEvBuf 0 = none ∧
    walkFrom mixedBuf 0 92 6 =
      walkFrom mixedBuf (0 + nlmsg_align (readU32 mixedBuf 0))
        (92 - nlmsg_align (readU32 mixedBuf 0)) 5 :=
  ⟨c5_decoder_rejects.1 foreignBuf 0 (by decide),
   c5_decoder_rejects.2.1 unknownEvBuf 0 (by decide) (by decide) (by decide)
     (by decide),
   c5_decoder_rejects.2.2 mixedBuf 0 92 5 (by decide) (by decide) (by decide)
     (by decide) (by decide) (by decide)⟩

/-- C6 (confirmed): a failing receive is never surfaced as a distinct error
value from the poll API: the call returns the same "none" a recordless pass
would produce, with the queue empty, and a subsequent poll call attempts
another receive — any later terminating call on the remaining oracle consumes
at least one further receive outcome. -/
theorem c6_recv_error_not_surfaced :
    (∀ rest : List (Option (List Nat)),
        recv [] (none :: rest) = some (none, [], rest)) ∧
    (∀ (r : Option (List Nat)) (rest : List (Option (List Nat)))
        (out : Option PidEvent × List PidEvent × List (Option (List Nat))),
        recv [] (r :: rest) = some out → out.2.2.length ≤ rest.length) := by
  constructor
  · intro rest; rfl
  · intro r rest out h
    rw [recv_nil_eq] at h
    match hg : get_events [] (r :: rest) with
    | none => rw [hg] at h; simp at h
    | some g =>
      rw [hg] at h
      have hlen := get_events_rest_len (r :: rest) g hg
      have h2 : (if g.res then some (g.queue.head?, g.queue.tail, g.rest)
          else some (none, g.queue, g.rest)) = some out := h
      have hout : out.2.2 = g.rest := by
        by_cases hres : g.res = true
        · rw [if_pos hres] at h2; cases h2; rfl
        · rw [if_neg hres] at h2; cases h2; rfl
      rw [hout]
      simp only [List.length_cons] at hlen
      omega

theorem c6_witness :
    recv [] [Option.none] =
      some (Option.none, ([] : List PidEvent), ([] : List (Option (List Nat)))) ∧
    ((Option.none : Option PidEvent), ([] : List PidEvent),
        ([] : List (Option (List Nat)))).2.2.length ≤
      ([] : List (Option (List Nat))).length :=
  ⟨c6_recv_error_not_surfaced.1 [],
   c6_recv_error_not_surfaced.2 Option.none [] _ (by decide)⟩

/-- C7 (confirmed): a pass over a received buffer loads the queue with the
decoded records in the order their frames were scanned, and each poll call on
a non-empty queue pops exactly the head, returning records in FIFO order one
per call without touching the socket. -/
theorem c7_fifo_order :
    (∀ (b : List Nat) (rest : List (Option (List Nat))) (e : PidEvent)
        (evs : List PidEvent),
        ¬ b.isEmpty → decodePass b = some (e :: evs) →
        get_events [] (some b :: rest) = some ⟨true, e :: evs, rest⟩) ∧
    (∀ (e : PidEvent) (q : List PidEvent) (recvs : List (Option (List Nat))),
        recv (e :: q) recvs = some (some e, q, recvs)) := by
  constructor
  · intro b rest e evs hb hdec
    rw [get_events_some_cons, if_neg hb, hdec]
    exact get_events_cons_queue e evs rest
  · exact recv_cons

theorem c7_witness :
    get_events [] [some forkBuf] =
      some ⟨true, [PidEvent.Fork 100 100 1 1], []⟩ ∧
    recv [PidEvent.Fork 100 100 1 1] [] =
      some (some (PidEvent.Fork 100 100 1 1), [], []) :=
  ⟨c7_fifo_order.1 forkBuf [] (PidEvent.Fork 100 100 1 1) [] (by decide)
     (by decide),
   c7_fifo_order.2 (PidEvent.Fork 100 100 1 1) [] []⟩

/-- C9 (confirmed): when `get_events` returns an error the queue is empty —
records are only appended after a successful receive, and a pass that did
append records ends the loop before another receive — so the failing poll
call returns none with the queue empty both before and after it; and a
receive is only ever attempted while the queue is empty: a poll on a
non-empty queue pops the head and leaves the receive oracle untouched. -/
theorem c9_error_leaves_queue_empty :
    (∀ (recvs rest : List (Option (List Nat))) (q : List PidEvent),
        get_events [] recvs = some ⟨false, q, rest⟩ → q = []) ∧
    (∀ (recvs rest : List (Option (List Nat))) (q : List PidEvent),
        get_events [] recvs = some ⟨false, q, rest⟩ →
        recv [] recvs = some (none, [], rest)) ∧
    (∀ (e : PidEvent) (q : List PidEvent) (recvs : List (Option (List Nat))),
        recv (e :: q) recvs = some (some e, q, recvs)) := by
  refine ⟨fun recvs rest q h => get_events_err_nil recvs q rest h, ?_,
    fun e q recvs => recv_cons e q recvs⟩
  intro recvs rest q h
  have hq := get_events_err_nil recvs q rest h
  subst hq
  rw [recv_nil_eq, h]
  rfl

theorem c9_witness :
    ([] : List PidEvent) = [] ∧
    recv [] [Option.none] = some (Option.none, [], []) ∧
    recv [PidEvent.Exec 1 1] [] = some (some (PidEvent.Exec 1 1), [], []) :=
  ⟨c9_error_leaves_queue_empty.1 [Option.none] [] [] (by decide),
   c9_error_leaves_queue_empty.2.1 [Option.none] [] [] (by decide),
   c9_error_leaves_queue_empty.2.2 (PidEvent.Exec 1 1) [] []⟩

/-- C10 (confirmed): the decoder never reads the envelope's declared
payload-length field (the u16 at frame offset 32): two buffers that agree
everywhere except possibly at bytes 32 and 33 of the frame decode to the same
result, so for a namespace-matching frame the outcome depends only on the
discriminant and the union bytes actually read. -/
theorem c10_len_field_not_read (b1 b2 : List Nat) (off : Nat)
    (h : ∀ i, i ≠ off + 32 → i ≠ off + 33 → b1.getD i 0 = b2.getD i 0) :
    parse_msg b1 off = parse_msg b2 off := by
  have r : ∀ c, c + 4 ≤ 32 ∨ 36 ≤ c →
      readU32 b1 (off + c) = readU32 b2 (off + c) := by
    intro c hc
    apply readU32_agree
    intro k hk
    have e1 : off + c + k ≠ off + 32 := by omega
    have e2 : off + c + k ≠ off + 33 := by omega
    exact h (off + c + k) e1 e2
  unfold parse_msg
  simp only [r 16 (by omega), r 20 (by omega), r 36 (by omega),
    r 52 (by omega), r 56 (by omega), r 60 (by omega), r 64 (by omega),
    r 68 (by omega), r 72 (by omega)]

theorem c10_witness : parse_msg forkBuf 0 = parse_msg forkBufLen99 0 :=
  c10_len_field_not_read forkBuf forkBufLen99 0 (by
    intro i h1 h2
    have h32 : (32 : Nat) ≠ i := by omega
    exact (getD_set_ne forkBuf 32 i 99 h32).symm)
